import Mathlib

/-!
# TestMapFinder: `app.js`

A shallow embedding of the pure and state-passing parts of `src/app.js`
(a browser-side travel-planning UI) together with theorems about them.

* JavaScript strings are Lean `String`s.  All characters the program inspects
  or inserts are ASCII, so the code-point view used here and the UTF-16
  code-unit view of the language agree on every operation that is modelled.
* Global mutable variables (`selectedPlaces`, `plan`, `isResizing`) become
  fields of an explicit state record; calls into the DOM, the console and the
  map widget are recorded, in order, in an effect trace.
* An `async` handler is modelled as one atomic step whose input is the
  outcome of the awaited network call.
-/

namespace TestMapFinder

/-! ## Values -/

/-- The JavaScript values that occur as a place `id` or as an argument of
`escapeHtml`: `undefined`, `null`, booleans, strings, and integer-valued
numbers (the geocoder's `place_id`).  The integers are those of magnitude at
most `2^53`: each is a representable number, and `String` prints it as plain
decimal digits. -/
inductive JsValue where
  | undefined
  | null
  | bool (b : Bool)
  | int (n : { n : Int // n.natAbs ≤ 2 ^ 53 })
  | str (s : String)
  deriving DecidableEq

/-- The built-in coercion `String(v)`. -/
def jsString : JsValue → String
  | .undefined => "undefined"
  | .null => "null"
  | .bool true => "true"
  | .bool false => "false"
  | .int n => toString n.val
  | .str s => s

/-- Rounding of an exact result to a representable number.  The program's
numbers are IEEE-754 doubles; finite ones are modelled as rationals and every
arithmetic operation rounds its exact result with `rn`.  Only two facts about
round-to-nearest are used: it is monotone, and integers of magnitude at most
`2^53` are representable. -/
structure Rounding where
  rn : ℚ → ℚ
  mono : Monotone rn
  exact : ∀ n : ℤ, |n| ≤ 2 ^ 53 → rn (n : ℚ) = (n : ℚ)

/-- The rounding that keeps every exact result (real-number arithmetic). -/
def Rounding.ideal : Rounding :=
  { rn := fun q => q, mono := fun _ _ h => h, exact := fun _ _ => rfl }

/-- A JavaScript number: `NaN`, the two infinities, or a finite value.
Signed zero is not distinguished. -/
inductive JsNum where
  | nan
  | posInf
  | negInf
  | fin (q : ℚ)
  deriving DecidableEq

/-- The relational operator `a < b` on numbers; false when either is `NaN`. -/
def JsNum.lt : JsNum → JsNum → Bool
  | .nan, _ => false
  | _, .nan => false
  | .posInf, _ => false
  | _, .negInf => false
  | .negInf, _ => true
  | .fin _, .posInf => true
  | .fin x, .fin y => decide (x < y)

/-- The built-in `Math.min` of two numbers. -/
def mathMin : JsNum → JsNum → JsNum
  | .nan, _ => .nan
  | _, .nan => .nan
  | .negInf, _ => .negInf
  | _, .negInf => .negInf
  | .posInf, b => b
  | a, .posInf => a
  | .fin x, .fin y => .fin (min x y)

/-- The built-in `Math.max` of two numbers. -/
def mathMax : JsNum → JsNum → JsNum
  | .nan, _ => .nan
  | _, .nan => .nan
  | .posInf, _ => .posInf
  | _, .posInf => .posInf
  | .negInf, b => b
  | a, .negInf => a
  | .fin x, .fin y => .fin (max x y)

/-- The sign of a number: `none` for `NaN`, otherwise `-1`, `0` or `1`. -/
def JsNum.sign : JsNum → Option Int
  | .nan => none
  | .posInf => some 1
  | .negInf => some (-1)
  | .fin q => some (if 0 < q then 1 else if q < 0 then -1 else 0)

/-- The operator `a * b`. -/
def JsNum.mul (R : Rounding) : JsNum → JsNum → JsNum
  | .fin x, .fin y => .fin (R.rn (x * y))
  | a, b =>
      match a.sign, b.sign with
      | some sa, some sb =>
          if 0 < sa * sb then .posInf else if sa * sb < 0 then .negInf else .nan
      | _, _ => .nan

/-- The operator `a - b`. -/
def JsNum.sub (R : Rounding) : JsNum → JsNum → JsNum
  | .nan, _ => .nan
  | _, .nan => .nan
  | .fin x, .fin y => .fin (R.rn (x - y))
  | .posInf, .posInf => .nan
  | .negInf, .negInf => .nan
  | .posInf, _ => .posInf
  | .negInf, _ => .negInf
  | .fin _, .posInf => .negInf
  | .fin _, .negInf => .posInf

/-- The built-in `Math.round`: the nearest integer, ties towards `+∞`. -/
def mathRound : JsNum → JsNum
  | .fin q => .fin (⌊q + 1 / 2⌋ : ℤ)
  | x => x

/-- The values the `importance` argument ranges over: absent, `null`, or a
number (possibly `NaN` or infinite). -/
inductive Importance where
  | undefined
  | null
  | num (x : JsNum)
  deriving DecidableEq

/-- The built-in coercion `Number(v)` on those values. -/
def jsNumber : Importance → JsNum
  | .undefined => .nan
  | .null => .fin 0
  | .num x => x

/-- The global `isNaN(v)`: coerce to a number, then test for `NaN`. -/
def jsIsNaN (v : Importance) : Bool :=
  decide (jsNumber v = .nan)

/-- A place, `{ id, name, lat, lon, address, raw }`; `raw` is the provider
payload, carried along as opaque text. -/
structure Place where
  id : JsValue
  name : String
  lat : JsNum
  lon : JsNum
  address : String
  raw : String
  deriving DecidableEq

/-! ## Application state and effects -/

/-- A parsed JSON document, as returned by `res.json()`. -/
inductive Json where
  | null
  | bool (b : Bool)
  | num (x : ℚ)
  | str (s : String)
  | arr (items : List Json)
  | obj (fields : List (String × Json))

/-- Observable side effects, in the order the program performs them. -/
inductive Effect where
  | renderPlacesList
  | renderPlan
  | consoleLog (msg : String)
  | consoleError (msg : String)
  | alert (msg : String)
  | fetchTravelPlan (places : List Place)

/-- The global variables of `app.js` that the modelled functions touch, and
the trace of effects performed so far. -/
structure AppState where
  selectedPlaces : List Place
  plan : Json
  effects : List Effect

/-- The state when the script has just been loaded:
`let selectedPlaces = []; let plan = [];`. -/
def AppState.initial : AppState :=
  { selectedPlaces := [], plan := .arr [], effects := [] }

/-- Append one effect to the trace. -/
def AppState.emit (s : AppState) (e : Effect) : AppState :=
  { s with effects := s.effects ++ [e] }

/-! ## Place store: `addPlace`, `removePlace` -/

/-- Source `addPlace(place)` (lines 214-226). -/
def addPlace (s : AppState) (place : Place) : AppState :=
  let normalizedPlace : Place := { place with id := .str (jsString place.id) }
  match s.selectedPlaces.find? (fun p => decide (JsValue.str (jsString p.id) = normalizedPlace.id)) with
  | none =>
      ({ s with selectedPlaces := s.selectedPlaces ++ [normalizedPlace] }).emit .renderPlacesList
  | some _ =>
      s.emit (.consoleLog ("Lugar duplicado no añadido:" ++ " " ++ jsString normalizedPlace.id))

/-- Source `removePlace(id)` (lines 232-236). -/
def removePlace (s : AppState) (id : JsValue) : AppState :=
  let idStr := jsString id
  ({ s with selectedPlaces := s.selectedPlaces.filter (fun p => decide (jsString p.id ≠ idStr)) }).emit
    .renderPlacesList

/-- One call on the place store. -/
inductive StoreOp where
  | add (place : Place)
  | remove (id : JsValue)

/-- Perform one store call. -/
def StoreOp.apply (s : AppState) : StoreOp → AppState
  | .add place => addPlace s place
  | .remove id => removePlace s id

/-- Perform a finite sequence of store calls, first call first. -/
def runStoreOps (s : AppState) (ops : List StoreOp) : AppState :=
  ops.foldl StoreOp.apply s

/-! ## Zoom heuristic: `getZoomFromImportance` -/

/-- Source `getZoomFromImportance(importance)` (lines 80-95). -/
def getZoomFromImportance (R : Rounding) (importance : Importance) : JsNum :=
  let minZoom : JsNum := .fin 7
  let maxZoom : JsNum := .fin 15
  if importance = .undefined ∨ importance = .null ∨ jsIsNaN importance = true then
    .fin 14
  else
    let imp := mathMax (.fin 0) (mathMin (jsNumber importance) (.fin (3 / 2)))
    let zoom := maxZoom.sub R (imp.mul R (maxZoom.sub R minZoom))
    mathRound zoom

/-! ## Escaping: `escapeHtml` -/

/-- The double-quote character. -/
def quot : Char := Char.ofNat 34

/-- The apostrophe character. -/
def apos : Char := Char.ofNat 39

/-- The method call `s.replace(/c/g, rep)` for a pattern that is the single
literal character `c`: every occurrence of `c` is replaced by `rep`. -/
def replaceAll (c : Char) (rep : String) (s : String) : String :=
  ⟨s.data.flatMap (fun ch => if ch = c then rep.data else [ch])⟩

/-- Source `escapeHtml(str)` (lines 101-109). -/
def escapeHtml : JsValue → String
  | .null => ""
  | .undefined => ""
  | v =>
      replaceAll apos "&#039;"
        (replaceAll quot "&quot;"
          (replaceAll '>' "&gt;"
            (replaceAll '<' "&lt;"
              (replaceAll '&' "&amp;" (jsString v)))))

/-- The combined effect of the five replacements on a single character; the
theorem `escapeHtml_data` shows that `escapeHtml` applies it to every
character. -/
def escapeChar (c : Char) : List Char :=
  if c = '&' then "&amp;".data
  else if c = '<' then "&lt;".data
  else if c = '>' then "&gt;".data
  else if c = quot then "&quot;".data
  else if c = apos then "&#039;".data
  else [c]

/-- The text that follows `&` in each of the five entities. -/
def entityTails : List (List Char) :=
  ["amp;".data, "lt;".data, "gt;".data, "quot;".data, "#039;".data]

/-- Decode the five entities from left to right; the first argument is the
number of characters still to skip as the remainder of an entity that has
just been decoded. -/
def unescapeFrom : Nat → List Char → List Char
  | _, [] => []
  | k + 1, _ :: t => unescapeFrom k t
  | 0, c :: t =>
      if c = '&' then
        if "amp;".data.isPrefixOf t then '&' :: unescapeFrom 4 t
        else if "lt;".data.isPrefixOf t then '<' :: unescapeFrom 3 t
        else if "gt;".data.isPrefixOf t then '>' :: unescapeFrom 3 t
        else if "quot;".data.isPrefixOf t then quot :: unescapeFrom 5 t
        else if "#039;".data.isPrefixOf t then apos :: unescapeFrom 5 t
        else c :: unescapeFrom 0 t
      else c :: unescapeFrom 0 t

/-- Replace each of the entities `&amp; &lt; &gt; &quot; &#039;` by the
character it stands for. -/
def unescapeHtml (s : String) : String :=
  ⟨unescapeFrom 0 s.data⟩

/-! ## Plan client: the `generate-plan-btn` click handler -/

/-- What the awaited `fetch` produced: the promise rejected, or a response
arrived with its `ok` flag and the result of `res.json()` (`none` when that
rejects because the body is not JSON). -/
inductive FetchOutcome where
  | rejected
  | response (ok : Bool) (body : Option Json)

mutual
/-- Whether the coercion `String(v)` throws for a parsed JSON value.  An
object converts through the inherited `toString` unless it has an own
property of that name, which (coming from JSON) is not callable, and then no
conversion to a primitive exists; an array joins the conversions of its
elements. -/
def Json.stringThrows : Json → Bool
  | .obj fields => fields.any (fun kv => kv.1 == "toString")
  | .arr items => Json.anyStringThrows items
  | _ => false
/-- Whether `String` throws for some value of a list. -/
def Json.anyStringThrows : List Json → Bool
  | [] => false
  | x :: xs => x.stringThrows || Json.anyStringThrows xs
end

/-- The property read `v[key]` on a parsed JSON value, for a key that no
prototype defines; `none` is `undefined`.  Of duplicate keys in the document
the last one is kept by `JSON.parse`. -/
def Json.get (key : String) : Json → Option Json
  | .obj fields => (fields.reverse.find? (fun kv => kv.1 == key)).map (fun kv => kv.2)
  | _ => none

/-- Whether rendering one plan item throws (lines 505-511): reading a
property of `null` throws, and so does `escapeHtml` on a field whose
conversion to a string throws. -/
def planItemThrows (item : Json) : Bool :=
  match item with
  | .null => true
  | _ =>
      ["name", "address", "recommended_budget", "currency", "recommended_time_minutes"].any
        (fun key => match item.get key with
          | some v => v.stringThrows
          | none => false)

/-- Whether `renderPlan()` throws for a given `plan` (lines 497-537), the
page's elements being present: `plan.forEach` exists only on arrays, and the
callback throws on the first item that cannot be rendered. -/
def renderPlanThrows : Json → Bool
  | .arr items => items.any planItemThrows
  | _ => true

/-- The `catch` block of the handler (lines 486-489). -/
def planCatch (s : AppState) : AppState :=
  (s.emit (.consoleError "Error generando plan:")).emit (.alert "Hubo un error generando el plan.")

/-- Source click handler of `generate-plan-btn` (lines 468-490), given the
outcome of the request it awaits. -/
def generatePlanClick (outcome : FetchOutcome) (s : AppState) : AppState :=
  if s.selectedPlaces.length = 0 then
    s.emit (.alert "Selecciona al menos un lugar.")
  else
    let s1 := s.emit (.fetchTravelPlan s.selectedPlaces)
    match outcome with
    | .rejected => planCatch s1
    | .response false _ => planCatch s1
    | .response true none => planCatch s1
    | .response true (some body) =>
        let s2 := ({ s1 with plan := body }).emit .renderPlan
        if renderPlanThrows body then planCatch s2 else s2

/-! ## Search focus: `focusSearchResult` -/

/-- The fields of a geocoder search result that `focusSearchResult` reads.
An absent `boundingbox` or `display_name` is `none`. -/
structure SearchResult where
  lat : String
  lon : String
  boundingbox : Option (List String)
  importance : Importance
  display_name : Option String

/-- Calls made on the map widget.  An argument that is `undefined` in the
program is `none`. -/
inductive MapCall where
  | fitBounds (south west north east : Option JsNum)
  | setView (lat lon : JsNum) (zoom : JsNum)
  | openPopup (lat lon : JsNum) (name address : String)
  deriving DecidableEq

/-- The expression `s || dflt` for an optional string: absent and empty
strings are falsy. -/
def orElse (s : Option String) (dflt : String) : String :=
  match s with
  | some t => if t = "" then dflt else t
  | none => dflt

/-- Source `focusSearchResult(result)` (lines 438-462), as the list of calls
it makes on the map, in order.  The built-in `parseFloat` is a parameter. -/
def focusSearchResult (R : Rounding) (parseFloat : String → JsNum) (result : SearchResult) :
    List MapCall :=
  let lat := parseFloat result.lat
  let lon := parseFloat result.lon
  let view : MapCall :=
    match result.boundingbox with
    | some box =>
        let parsed := box.map parseFloat
        let south := parsed[0]?
        let north := parsed[1]?
        let west := parsed[2]?
        let east := parsed[3]?
        .fitBounds south west north east
    | none =>
        let zoom := getZoomFromImportance R result.importance
        .setView lat lon zoom
  [view,
   .openPopup lat lon (orElse result.display_name "Ubicación sin nombre")
     (orElse result.display_name "")]

/-! ## Divider drag: the `mousemove` handler -/

/-- The state the resize handlers share: the `isResizing` flag, the width in
pixels last written to the map element's inline `flex` style (if any), and
how many times `map.invalidateSize()` has been called. -/
structure ResizeState where
  isResizing : Bool
  mapWidth : Option ℚ
  invalidateCalls : Nat

/-- The assignment `mapElement.style.flex = '0 0 ' + w + 'px'` (line 27),
given the width the inline style held before: a negative flex basis is not a
valid value, and the style setter discards an invalid value and keeps the
earlier one. -/
def setMapFlex (w : ℚ) (previous : Option ℚ) : Option ℚ :=
  if 0 ≤ w then some w else previous

/-- Source `mousemove` handler (lines 17-34) for a pointer at `clientX` in a
window `innerWidth` pixels wide.  The global `map` is assigned when the
script loads, so the guard `if (map)` holds whenever the handler runs. -/
def onMouseMove (innerWidth : ℤ) (clientX : ℚ) (s : ResizeState) : ResizeState :=
  if !s.isResizing then s
  else
    let minMap : ℚ := 250
    let maxMap : ℚ := innerWidth - 280
    let newMapWidth := clientX
    let newMapWidth := if newMapWidth < minMap then minMap else newMapWidth
    let newMapWidth := if newMapWidth > maxMap then maxMap else newMapWidth
    { s with
      mapWidth := setMapFlex newMapWidth s.mapWidth,
      invalidateCalls := s.invalidateCalls + 1 }


/-! ## Theorems: place store -/

theorem addPlace_selectedPlaces (s : AppState) (place : Place) :
    (addPlace s place).selectedPlaces =
      if s.selectedPlaces.any (fun p => decide (jsString p.id = jsString place.id)) then
        s.selectedPlaces
      else s.selectedPlaces ++ [{ place with id := .str (jsString place.id) }] := by
  unfold addPlace
  simp only [JsValue.str.injEq]
  cases h : s.selectedPlaces.find? (fun p => decide (jsString p.id = jsString place.id)) with
  | none =>
      have h2 : s.selectedPlaces.any (fun p => decide (jsString p.id = jsString place.id)) = false := by
        rw [List.find?_eq_none] at h
        rw [List.any_eq_false]
        exact h
      simp [h2, AppState.emit]
  | some q =>
      have h2 : s.selectedPlaces.any (fun p => decide (jsString p.id = jsString place.id)) = true := by
        rw [List.any_eq_true]
        exact ⟨q, List.mem_of_find?_eq_some h, by simpa using List.find?_some h⟩
      simp [h2, AppState.emit]

theorem removePlace_selectedPlaces (s : AppState) (id : JsValue) :
    (removePlace s id).selectedPlaces =
      s.selectedPlaces.filter (fun p => decide (jsString p.id ≠ jsString id)) := by
  simp [removePlace, AppState.emit]

theorem distinctIds_addPlace (s : AppState) (place : Place)
    (h : s.selectedPlaces.Pairwise (fun p q => jsString p.id ≠ jsString q.id)) :
    (addPlace s place).selectedPlaces.Pairwise (fun p q => jsString p.id ≠ jsString q.id) := by
  rw [addPlace_selectedPlaces]
  split
  · exact h
  · rename_i hany
    rw [List.pairwise_append]
    refine ⟨h, List.pairwise_singleton _ _, ?_⟩
    intro p hp q hq
    simp only [List.mem_singleton] at hq
    subst hq
    simp only [Bool.not_eq_true, List.any_eq_false, decide_eq_true_eq] at hany
    simpa [jsString] using hany p hp

theorem distinctIds_removePlace (s : AppState) (id : JsValue)
    (h : s.selectedPlaces.Pairwise (fun p q => jsString p.id ≠ jsString q.id)) :
    (removePlace s id).selectedPlaces.Pairwise (fun p q => jsString p.id ≠ jsString q.id) := by
  rw [removePlace_selectedPlaces]
  exact h.sublist (List.filter_sublist _)

theorem distinctIds_runStoreOps (ops : List StoreOp) (s : AppState)
    (h : s.selectedPlaces.Pairwise (fun p q => jsString p.id ≠ jsString q.id)) :
    (runStoreOps s ops).selectedPlaces.Pairwise (fun p q => jsString p.id ≠ jsString q.id) := by
  induction ops generalizing s with
  | nil => exact h
  | cons op ops ih =>
      simp only [runStoreOps, List.foldl_cons]
      apply ih
      cases op with
      | add place => exact distinctIds_addPlace s place h
      | remove id => exact distinctIds_removePlace s id h

/-- C1: after any finite sequence of `addPlace` and `removePlace` calls
starting from the empty `selectedPlaces`, no two entries of `selectedPlaces`
have equal string-coerced ids. -/
theorem selectedPlaces_distinct_ids (ops : List StoreOp) :
    (runStoreOps AppState.initial ops).selectedPlaces.Pairwise
      (fun p q => jsString p.id ≠ jsString q.id) :=
  distinctIds_runStoreOps ops AppState.initial List.Pairwise.nil

/-- C2: `addPlace(place)` leaves `selectedPlaces` unchanged when some entry
already has the string id `String(place.id)`; otherwise the result is the old
sequence followed by one new last element, `place` with its id replaced by
`String(place.id)`.  In both cases the old sequence is a prefix of the new
one.  Adding `{id:"1", name:"A"}` and then `{id:"1", name:"A-dup"}` to the
empty store leaves the single entry named `"A"`. -/
theorem addPlace_spec (s : AppState) (place : Place) :
    ((∃ p ∈ s.selectedPlaces, jsString p.id = jsString place.id) →
        (addPlace s place).selectedPlaces = s.selectedPlaces) ∧
    ((¬ ∃ p ∈ s.selectedPlaces, jsString p.id = jsString place.id) →
        (addPlace s place).selectedPlaces =
          s.selectedPlaces ++ [{ place with id := .str (jsString place.id) }]) ∧
    s.selectedPlaces <+: (addPlace s place).selectedPlaces ∧
    (∀ (lat lon : JsNum) (address raw : String),
        (addPlace (addPlace AppState.initial ⟨.str "1", "A", lat, lon, address, raw⟩)
            ⟨.str "1", "A-dup", lat, lon, address, raw⟩).selectedPlaces =
          [⟨.str "1", "A", lat, lon, address, raw⟩]) := by
  refine ⟨?_, ?_, ?_, ?_⟩
  · rintro ⟨p, hp, hid⟩
    rw [addPlace_selectedPlaces, if_pos]
    rw [List.any_eq_true]
    exact ⟨p, hp, by simpa using hid⟩
  · intro h
    rw [addPlace_selectedPlaces, if_neg]
    rw [List.any_eq_true]
    rintro ⟨p, hp, hid⟩
    exact h ⟨p, hp, by simpa using hid⟩
  · rw [addPlace_selectedPlaces]
    split
    · exact List.prefix_refl _
    · exact List.prefix_append _ _
  · intro lat lon address raw
    simp [addPlace_selectedPlaces, AppState.initial, jsString]

theorem filter_key_ne_of_pairwise {α κ : Type} [DecidableEq κ] (key : α → κ) (l : List α)
    (h : l.Pairwise (fun a b => key a ≠ key b)) (p : α) (hp : p ∈ l) :
    ∃ l₁ l₂, l = l₁ ++ p :: l₂ ∧ l.filter (fun a => decide (key a ≠ key p)) = l₁ ++ l₂ := by
  induction l with
  | nil => cases hp
  | cons a t ih =>
      rw [List.pairwise_cons] at h
      rcases List.mem_cons.mp hp with rfl | hpt
      · refine ⟨[], t, rfl, ?_⟩
        have : t.filter (fun a => decide (key a ≠ key p)) = t := by
          rw [List.filter_eq_self]
          intro b hb
          simpa using fun hbk => h.1 b hb hbk.symm
        rw [List.filter_cons, this]
        simp
      · obtain ⟨l₁, l₂, hl, hf⟩ := ih h.2 hpt
        refine ⟨a :: l₁, l₂, by rw [hl]; rfl, ?_⟩
        have hne : key a ≠ key p := h.1 p hpt
        rw [List.filter_cons, hf]
        simp [hne]

/-- C3: on a store reached from the empty one by `addPlace`/`removePlace`
calls, `removePlace(id)` leaves `selectedPlaces` unchanged when no entry has
the string id `String(id)`; when an entry `p` has it, `selectedPlaces` splits
as `l₁ ++ p :: l₂`, the result is `l₁ ++ l₂` (that entry removed, all others
in their original order), no remaining entry has that string id, and the
length has decreased by exactly one. -/
theorem removePlace_spec (ops : List StoreOp) (id : JsValue) :
    ((∀ p ∈ (runStoreOps AppState.initial ops).selectedPlaces, jsString p.id ≠ jsString id) →
        (removePlace (runStoreOps AppState.initial ops) id).selectedPlaces =
          (runStoreOps AppState.initial ops).selectedPlaces) ∧
    (∀ p ∈ (runStoreOps AppState.initial ops).selectedPlaces, jsString p.id = jsString id →
        ∃ l₁ l₂, (runStoreOps AppState.initial ops).selectedPlaces = l₁ ++ p :: l₂ ∧
          (removePlace (runStoreOps AppState.initial ops) id).selectedPlaces = l₁ ++ l₂ ∧
          (∀ q ∈ l₁ ++ l₂, jsString q.id ≠ jsString id) ∧
          (removePlace (runStoreOps AppState.initial ops) id).selectedPlaces.length + 1 =
            (runStoreOps AppState.initial ops).selectedPlaces.length) := by
  have hd := distinctIds_runStoreOps ops AppState.initial List.Pairwise.nil
  generalize runStoreOps AppState.initial ops = s at hd
  refine ⟨?_, ?_⟩
  · intro h
    rw [removePlace_selectedPlaces, List.filter_eq_self]
    intro p hp
    simpa using h p hp
  · intro p hp hid
    obtain ⟨l₁, l₂, hl, hf⟩ := filter_key_ne_of_pairwise (fun q => jsString q.id) _ hd p hp
    simp only [hid] at hf
    refine ⟨l₁, l₂, hl, ?_, ?_, ?_⟩
    · rw [removePlace_selectedPlaces]; exact hf
    · intro q hq
      rw [← hf, List.mem_filter] at hq
      simpa using hq.2
    · rw [removePlace_selectedPlaces, hf, hl]
      simp only [List.length_append, List.length_cons]
      omega

/-! ## Theorems: zoom heuristic -/

theorem Rounding.rn_natCast (R : Rounding) (n : ℕ) (h : n ≤ 2 ^ 53) : R.rn (n : ℚ) = (n : ℚ) := by
  have := R.exact (n : ℤ) (by rw [abs_of_nonneg (by positivity)]; exact_mod_cast h)
  simpa using this

theorem Rounding.rn_ofNat (R : Rounding) (n : ℕ) [n.AtLeastTwo] (h : n ≤ 2 ^ 53) :
    R.rn (OfNat.ofNat n : ℚ) = (OfNat.ofNat n : ℚ) :=
  R.rn_natCast n h

theorem getZoomFromImportance_fin (R : Rounding) (x : ℚ) :
    getZoomFromImportance R (.num (.fin x)) =
      .fin ((⌊R.rn (15 - R.rn (max 0 (min x (3 / 2)) * 8)) + 1 / 2⌋ : ℤ) : ℚ) := by
  have h8 : R.rn (15 - 7) = 8 := by
    have := R.rn_ofNat 8 (by norm_num)
    norm_num at this ⊢
    exact this
  simp [getZoomFromImportance, jsIsNaN, jsNumber, mathMin, mathMax, JsNum.sub, JsNum.mul,
    mathRound, h8]

theorem getZoomFromImportance_posInf (R : Rounding) :
    getZoomFromImportance R (.num .posInf) = getZoomFromImportance R (.num (.fin (3 / 2))) := by
  simp [getZoomFromImportance, jsIsNaN, jsNumber, mathMin, mathMax]

theorem getZoomFromImportance_negInf (R : Rounding) :
    getZoomFromImportance R (.num .negInf) = getZoomFromImportance R (.num (.fin 0)) := by
  simp [getZoomFromImportance, jsIsNaN, jsNumber, mathMin, mathMax]

/-- The interpolation step is antitone in the clamped importance. -/
theorem interpolate_antitone (R : Rounding) {c d : ℚ} (h : c ≤ d) :
    (⌊R.rn (15 - R.rn (d * 8)) + 1 / 2⌋ : ℤ) ≤ ⌊R.rn (15 - R.rn (c * 8)) + 1 / 2⌋ := by
  apply Int.floor_mono
  have h1 : R.rn (c * 8) ≤ R.rn (d * 8) := R.mono (by linarith)
  have h2 : R.rn (15 - R.rn (d * 8)) ≤ R.rn (15 - R.rn (c * 8)) := R.mono (by linarith)
  linarith

theorem interpolate_zero (R : Rounding) :
    (⌊R.rn (15 - R.rn (0 * 8)) + 1 / 2⌋ : ℤ) = 15 := by
  have h0 : R.rn 0 = 0 := by simpa using R.rn_natCast 0 (by norm_num)
  have h15 : R.rn 15 = 15 := R.rn_ofNat 15 (by norm_num)
  rw [zero_mul, h0, sub_zero, h15, Int.floor_eq_iff]
  norm_num

theorem interpolate_three_halves (R : Rounding) :
    (⌊R.rn (15 - R.rn (3 / 2 * 8)) + 1 / 2⌋ : ℤ) = 3 := by
  have h12 : R.rn 12 = 12 := R.rn_ofNat 12 (by norm_num)
  have h3 : R.rn 3 = 3 := R.rn_ofNat 3 (by norm_num)
  have e1 : (3 / 2 * 8 : ℚ) = 12 := by norm_num
  have e2 : (15 - 12 : ℚ) = 3 := by norm_num
  rw [e1, h12, e2, h3, Int.floor_eq_iff]
  norm_num

theorem clamp_mono {x y : ℚ} (h : x ≤ y) :
    max 0 (min x (3 / 2)) ≤ max 0 (min y (3 / 2)) :=
  max_le_max le_rfl (min_le_min h le_rfl)

/-- The zoom heuristic is total and returns an integer between 3 and 15 on
every input; the default is 14. -/
theorem getZoomFromImportance_range (R : Rounding) (importance : Importance) :
    ∃ z : ℤ, getZoomFromImportance R importance = .fin z ∧ 3 ≤ z ∧ z ≤ 15 := by
  have hfin : ∀ x : ℚ, ∃ z : ℤ, getZoomFromImportance R (.num (.fin x)) = .fin z ∧ 3 ≤ z ∧ z ≤ 15 := by
    intro x
    refine ⟨_, getZoomFromImportance_fin R x, ?_, ?_⟩
    · rw [← interpolate_three_halves R]
      exact interpolate_antitone R (max_le (by norm_num) (min_le_right _ _))
    · rw [← interpolate_zero R]
      exact interpolate_antitone R (le_max_left _ _)
  match importance with
  | .undefined => exact ⟨14, by simp [getZoomFromImportance], by norm_num, by norm_num⟩
  | .null => exact ⟨14, by simp [getZoomFromImportance], by norm_num, by norm_num⟩
  | .num .nan =>
      exact ⟨14, by simp [getZoomFromImportance, jsIsNaN, jsNumber], by norm_num, by norm_num⟩
  | .num .posInf => rw [getZoomFromImportance_posInf]; exact hfin _
  | .num .negInf => rw [getZoomFromImportance_negInf]; exact hfin _
  | .num (.fin x) => exact hfin x

/-- C4 (failing input): at importance `1.5` the heuristic returns `3`, below
the documented minimum zoom `7`. -/
theorem getZoomFromImportance_three_halves (R : Rounding) :
    getZoomFromImportance R (.num (.fin (3 / 2))) = .fin 3 := by
  rw [getZoomFromImportance_fin]
  have e : max 0 (min (3 / 2 : ℚ) (3 / 2)) = 3 / 2 := by norm_num
  rw [e, interpolate_three_halves]
  norm_num

/-- C5 (failing input): at importance `2`, above the clamp bound `1.5`, the
heuristic returns `3`, not `7`. -/
theorem getZoomFromImportance_two (R : Rounding) :
    getZoomFromImportance R (.num (.fin 2)) = .fin 3 := by
  rw [getZoomFromImportance_fin]
  have e : max 0 (min (2 : ℚ) (3 / 2)) = 3 / 2 := by norm_num
  rw [e, interpolate_three_halves]
  norm_num

/-- The parts of the clamping policy that hold: importance at most `0` gives
`15`, importance at least `1.5` gives the value at `1.5`, in between the
result is the rounded interpolation, and an absent, `null` or `NaN`
importance gives `14`. -/
theorem getZoomFromImportance_policy (R : Rounding) :
    (∀ x : ℚ, x ≤ 0 → getZoomFromImportance R (.num (.fin x)) = .fin 15) ∧
    (∀ x : ℚ, 3 / 2 ≤ x → getZoomFromImportance R (.num (.fin x)) = .fin 3) ∧
    (∀ x : ℚ, 0 ≤ x → x ≤ 3 / 2 → getZoomFromImportance R (.num (.fin x)) =
        .fin ((⌊R.rn (15 - R.rn (x * 8)) + 1 / 2⌋ : ℤ) : ℚ)) ∧
    getZoomFromImportance R (.num .negInf) = .fin 15 ∧
    getZoomFromImportance R (.num .posInf) = .fin 3 ∧
    getZoomFromImportance R .undefined = .fin 14 ∧
    getZoomFromImportance R .null = .fin 14 ∧
    getZoomFromImportance R (.num .nan) = .fin 14 := by
  have hlow : ∀ x : ℚ, x ≤ 0 → getZoomFromImportance R (.num (.fin x)) = .fin 15 := by
    intro x hx
    have e : max 0 (min x (3 / 2)) = 0 := max_eq_left ((min_le_left _ _).trans hx)
    rw [getZoomFromImportance_fin, e, interpolate_zero]
    norm_num
  have hhigh : ∀ x : ℚ, 3 / 2 ≤ x → getZoomFromImportance R (.num (.fin x)) = .fin 3 := by
    intro x hx
    have e : max 0 (min x (3 / 2)) = 3 / 2 := by
      rw [min_eq_right hx]; norm_num
    rw [getZoomFromImportance_fin, e, interpolate_three_halves]
    norm_num
  refine ⟨hlow, hhigh, ?_, ?_, ?_, ?_, ?_, ?_⟩
  · intro x h0 h1
    rw [getZoomFromImportance_fin, min_eq_left h1, max_eq_right h0]
  · rw [getZoomFromImportance_negInf]; exact hlow 0 le_rfl
  · rw [getZoomFromImportance_posInf]; exact hhigh _ le_rfl
  · simp [getZoomFromImportance]
  · simp [getZoomFromImportance]
  · simp [getZoomFromImportance, jsIsNaN, jsNumber]

/-- C6: for numbers `a < b`, the zoom for `b` is at most the zoom for `a`
(both are integers). -/
theorem getZoomFromImportance_antitone (R : Rounding) (a b : JsNum) (h : a.lt b = true) :
    ∃ za zb : ℤ, getZoomFromImportance R (.num a) = .fin za ∧
      getZoomFromImportance R (.num b) = .fin zb ∧ zb ≤ za := by
  have hfin : ∀ x y : ℚ, x ≤ y → ∃ za zb : ℤ, getZoomFromImportance R (.num (.fin x)) = .fin za ∧
      getZoomFromImportance R (.num (.fin y)) = .fin zb ∧ zb ≤ za := by
    intro x y hxy
    exact ⟨_, _, getZoomFromImportance_fin R x, getZoomFromImportance_fin R y,
      interpolate_antitone R (clamp_mono hxy)⟩
  match a, b, h with
  | .negInf, .posInf, _ =>
      rw [getZoomFromImportance_negInf, getZoomFromImportance_posInf]
      exact hfin _ _ (by norm_num)
  | .negInf, .fin y, _ =>
      obtain ⟨z, hz, _, hz15⟩ := getZoomFromImportance_range R (.num (.fin y))
      exact ⟨15, z, (getZoomFromImportance_policy R).2.2.2.1, hz, hz15⟩
  | .fin x, .posInf, _ =>
      obtain ⟨z, hz, hz3, _⟩ := getZoomFromImportance_range R (.num (.fin x))
      exact ⟨z, 3, hz, (getZoomFromImportance_policy R).2.2.2.2.1, hz3⟩
  | .fin x, .fin y, h =>
      have hxy : x < y := by simpa [JsNum.lt] using h
      exact hfin x y hxy.le

/-- C6 at a concrete input: importance `0.25` against `1.25`. -/
theorem getZoomFromImportance_antitone_witness :
    JsNum.lt (.fin (1 / 4)) (.fin (5 / 4)) = true ∧
      ∃ za zb : ℤ, getZoomFromImportance Rounding.ideal (.num (.fin (1 / 4))) = .fin za ∧
        getZoomFromImportance Rounding.ideal (.num (.fin (5 / 4))) = .fin zb ∧ zb ≤ za :=
  ⟨by norm_num [JsNum.lt],
   getZoomFromImportance_antitone Rounding.ideal _ _ (by norm_num [JsNum.lt])⟩

/-! ## Theorems: plan client -/

/-- C7: with a non-empty `selectedPlaces`, when the request is rejected, the
response has a non-success status, or its body fails to parse as JSON, the
handler leaves `plan` (and `selectedPlaces`) as they were and performs
exactly: the request, a console error, an alert; `renderPlan` is not called.
The handler changes `plan` only when the response is successful and parses,
and then `plan` is the parsed body. -/
theorem generatePlanClick_spec (s : AppState) (outcome : FetchOutcome)
    (hne : s.selectedPlaces ≠ []) :
    ((outcome = .rejected ∨ (∃ body, outcome = .response false body) ∨
        outcome = .response true none) →
      (generatePlanClick outcome s).plan = s.plan ∧
      (generatePlanClick outcome s).selectedPlaces = s.selectedPlaces ∧
      (generatePlanClick outcome s).effects =
        s.effects ++ [.fetchTravelPlan s.selectedPlaces,
          .consoleError "Error generando plan:", .alert "Hubo un error generando el plan."]) ∧
    ((generatePlanClick outcome s).plan ≠ s.plan →
      ∃ body, outcome = .response true (some body) ∧ (generatePlanClick outcome s).plan = body) ∧
    (∀ body, (generatePlanClick (.response true (some body)) s).plan = body) := by
  have hlen : ¬ s.selectedPlaces.length = 0 := by
    simpa [List.length_eq_zero] using hne
  refine ⟨?_, ?_, ?_⟩
  · rintro (rfl | ⟨body, rfl⟩ | rfl) <;>
      simp [generatePlanClick, hlen, planCatch, AppState.emit]
  · intro hplan
    match outcome, hplan with
    | .rejected, hplan => simp [generatePlanClick, hlen, planCatch, AppState.emit] at hplan
    | .response false _, hplan =>
        simp [generatePlanClick, hlen, planCatch, AppState.emit] at hplan
    | .response true none, hplan =>
        simp [generatePlanClick, hlen, planCatch, AppState.emit] at hplan
    | .response true (some body), _ =>
        refine ⟨body, rfl, ?_⟩
        simp only [generatePlanClick, hlen, if_false]
        split <;> simp [planCatch, AppState.emit]
  · intro body
    simp only [generatePlanClick, hlen, if_false]
    split <;> simp [planCatch, AppState.emit]

/-- C7 at a concrete input: one selected place, the backend answers with a
non-success status (HTTP 500) and an unparseable body. -/
theorem generatePlanClick_spec_witness :
    (generatePlanClick (.response false none)
        ⟨[⟨.str "1", "A", .nan, .nan, "", ""⟩], .arr [], []⟩).plan = .arr [] ∧
    (generatePlanClick (.response false none)
        ⟨[⟨.str "1", "A", .nan, .nan, "", ""⟩], .arr [], []⟩).effects =
      [.fetchTravelPlan [⟨.str "1", "A", .nan, .nan, "", ""⟩],
        .consoleError "Error generando plan:", .alert "Hubo un error generando el plan."] :=
  have h := (generatePlanClick_spec ⟨[⟨.str "1", "A", .nan, .nan, "", ""⟩], .arr [], []⟩
    (.response false none) (by simp)).1 (Or.inr (Or.inl ⟨none, rfl⟩))
  ⟨h.1, h.2.2⟩

/-- Concrete runs of `renderPlanThrows`: an array of ordinary items renders,
while a non-array plan, a `null` item, and an item whose `name` cannot be
converted to a string make `renderPlan` throw. -/
theorem renderPlanThrows_examples :
    renderPlanThrows (.arr [.obj [("name", .str "A"), ("address", .null)]]) = false ∧
    renderPlanThrows (.obj [("error", .str "x")]) = true ∧
    renderPlanThrows (.arr [.null]) = true ∧
    renderPlanThrows (.arr [.obj [("name", .obj [("toString", .num 1)])]]) = true := by
  decide

/-! ## Theorems: search focus -/

/-- C8: for a result whose `boundingbox` is `[south, north, west, east]`,
`focusSearchResult` calls `fitBounds` with corners `(south, west)` and
`(north, east)` and then opens the popup; for a result without a
`boundingbox` it calls `setView` at `(lat, lon)` with zoom
`getZoomFromImportance(result.importance)`; and whenever a `boundingbox` is
present no `setView` call is made. -/
theorem focusSearchResult_spec (R : Rounding) (parseFloat : String → JsNum)
    (result : SearchResult) :
    (∀ south north west east : String,
      result.boundingbox = some [south, north, west, east] →
      focusSearchResult R parseFloat result =
        [.fitBounds (some (parseFloat south)) (some (parseFloat west))
            (some (parseFloat north)) (some (parseFloat east)),
          .openPopup (parseFloat result.lat) (parseFloat result.lon)
            (orElse result.display_name "Ubicación sin nombre")
            (orElse result.display_name "")]) ∧
    (result.boundingbox = none →
      focusSearchResult R parseFloat result =
        [.setView (parseFloat result.lat) (parseFloat result.lon)
            (getZoomFromImportance R result.importance),
          .openPopup (parseFloat result.lat) (parseFloat result.lon)
            (orElse result.display_name "Ubicación sin nombre")
            (orElse result.display_name "")]) ∧
    (∀ box, result.boundingbox = some box →
      ∀ lat lon zoom, MapCall.setView lat lon zoom ∉ focusSearchResult R parseFloat result) := by
  refine ⟨?_, ?_, ?_⟩
  · intro south north west east h
    simp [focusSearchResult, h]
  · intro h
    simp [focusSearchResult, h]
  · intro box h lat lon zoom
    simp [focusSearchResult, h]

/-! ## Theorems: divider drag -/

/-- C9 (failing input): in a window 400 pixels wide, a drag to `x = 300`
sets the map width to `120`, below the minimum map width `250` that the
handler declares as `minMap`. -/
theorem onMouseMove_below_minimum :
    (onMouseMove 400 300 ⟨true, none, 0⟩).mapWidth = some 120 ∧ ¬ ((250 : ℚ) ≤ 120) := by
  constructor
  · norm_num [onMouseMove, setMapFlex]
  · norm_num

/-- In a window at least 530 pixels wide the two clamps are compatible:
during a drag the handler sets a map width between `250` and
`innerWidth - 280`, and notifies the map once. -/
theorem onMouseMove_wide_window (innerWidth : ℤ) (clientX : ℚ) (s : ResizeState)
    (h : s.isResizing = true) (hw : 530 ≤ innerWidth) :
    ∃ w : ℚ, (onMouseMove innerWidth clientX s).mapWidth = some w ∧
      250 ≤ w ∧ w ≤ (innerWidth : ℚ) - 280 ∧
      (onMouseMove innerWidth clientX s).invalidateCalls = s.invalidateCalls + 1 := by
  have hw' : (530 : ℚ) ≤ innerWidth := by exact_mod_cast hw
  have hb : ∀ w : ℚ, 250 ≤ w → setMapFlex w s.mapWidth = some w := by
    intro w h250
    simp only [setMapFlex]
    rw [if_pos (by linarith)]
  by_cases hx : clientX < 250
  · by_cases hm : (250 : ℚ) > (innerWidth : ℚ) - 280
    · linarith
    · refine ⟨250, ?_, le_rfl, by linarith, by simp [onMouseMove, h]⟩
      simp only [onMouseMove, h, hx, hm, if_true, if_false, Bool.not_true, Bool.false_eq_true]
      exact hb 250 le_rfl
  · by_cases hm : clientX > (innerWidth : ℚ) - 280
    · refine ⟨(innerWidth : ℚ) - 280, ?_, by linarith, le_rfl, by simp [onMouseMove, h]⟩
      simp only [onMouseMove, h, hx, hm, if_true, if_false, Bool.not_true, Bool.false_eq_true]
      exact hb _ (by linarith)
    · refine ⟨clientX, ?_, by linarith, by linarith, by simp [onMouseMove, h]⟩
      simp only [onMouseMove, h, hx, hm, if_true, if_false, Bool.not_true, Bool.false_eq_true]
      exact hb _ (by linarith)

/-- In a window narrower than 280 pixels the width the handler computes is
negative, the style setter discards it, and the inline width keeps its
earlier value. -/
theorem onMouseMove_narrow_window (innerWidth : ℤ) (clientX : ℚ) (s : ResizeState)
    (h : s.isResizing = true) (hw : innerWidth < 280) :
    (onMouseMove innerWidth clientX s).mapWidth = s.mapWidth := by
  have hw' : (innerWidth : ℚ) < 280 := by exact_mod_cast hw
  simp only [onMouseMove, h, Bool.not_true, Bool.false_eq_true, if_false, setMapFlex]
  rw [if_neg]
  split_ifs <;> linarith

/-! ## Theorems: escaping -/

theorem replaceAll_data (c : Char) (rep s : String) :
    (replaceAll c rep s).data = s.data.flatMap (fun ch => if ch = c then rep.data else [ch]) :=
  rfl

theorem escapeHtml_data (s : String) :
    (escapeHtml (.str s)).data = s.data.flatMap escapeChar := by
  simp only [escapeHtml, jsString, replaceAll_data, List.flatMap_assoc]
  congr 1
  funext c
  unfold escapeChar
  split_ifs with h1 h2 h3 h4 h5
  · subst h1; decide
  · subst h2; decide
  · subst h3; decide
  · subst h4; decide
  · subst h5; decide
  · simp [h1, h2, h3, h4, h5]

theorem unescapeFrom_escapeChar (c : Char) (rest : List Char) :
    unescapeFrom 0 (escapeChar c ++ rest) = c :: unescapeFrom 0 rest := by
  unfold escapeChar
  split_ifs with h1 h2 h3 h4 h5
  · subst h1; simp [unescapeFrom]
  · subst h2; simp [unescapeFrom]
  · subst h3; simp [unescapeFrom]
  · subst h4; simp [unescapeFrom]
  · subst h5; simp [unescapeFrom]
  · simp [unescapeFrom, h1]

theorem unescapeFrom_flatMap (l : List Char) :
    unescapeFrom 0 (l.flatMap escapeChar) = l := by
  induction l with
  | nil => rfl
  | cons c t ih => rw [List.flatMap_cons, unescapeFrom_escapeChar, ih]

theorem mem_escapeChar_not_special {c d : Char} (h : c ∈ escapeChar d) :
    c ≠ '<' ∧ c ≠ '>' ∧ c ≠ quot ∧ c ≠ apos := by
  unfold escapeChar at h
  split_ifs at h with h1 h2 h3 h4 h5
  · have hc : c ∈ ['&', 'a', 'm', 'p', ';'] := h
    simp only [List.mem_cons, List.mem_singleton, List.not_mem_nil, or_false] at hc
    rcases hc with rfl | rfl | rfl | rfl | rfl <;> decide
  · have hc : c ∈ ['&', 'l', 't', ';'] := h
    simp only [List.mem_cons, List.mem_singleton, List.not_mem_nil, or_false] at hc
    rcases hc with rfl | rfl | rfl | rfl <;> decide
  · have hc : c ∈ ['&', 'g', 't', ';'] := h
    simp only [List.mem_cons, List.mem_singleton, List.not_mem_nil, or_false] at hc
    rcases hc with rfl | rfl | rfl | rfl <;> decide
  · have hc : c ∈ ['&', 'q', 'u', 'o', 't', ';'] := h
    simp only [List.mem_cons, List.mem_singleton, List.not_mem_nil, or_false] at hc
    rcases hc with rfl | rfl | rfl | rfl | rfl | rfl <;> decide
  · have hc : c ∈ ['&', '#', '0', '3', '9', ';'] := h
    simp only [List.mem_cons, List.mem_singleton, List.not_mem_nil, or_false] at hc
    rcases hc with rfl | rfl | rfl | rfl | rfl | rfl <;> decide
  · simp only [List.mem_singleton] at h
    subst h
    exact ⟨h2, h3, h4, h5⟩

theorem amp_split_unique {e p₁ p₂ : List Char} (he : '&' ∉ e)
    (h : '&' :: e = p₁ ++ '&' :: p₂) : p₁ = [] ∧ p₂ = e := by
  cases p₁ with
  | nil =>
      simp only [List.nil_append, List.cons.injEq, true_and] at h
      exact ⟨rfl, h.symm⟩
  | cons a p =>
      simp only [List.cons_append, List.cons.injEq] at h
      exact absurd (h.2 ▸ List.mem_append_right p (List.mem_cons_self _ _)) he

theorem escapeChar_amp_split {d : Char} {p₁ p₂ : List Char}
    (h : escapeChar d = p₁ ++ '&' :: p₂) : p₁ = [] ∧ p₂ ∈ entityTails := by
  unfold escapeChar at h
  split_ifs at h with h1 h2 h3 h4 h5
  · obtain ⟨hp, rfl⟩ := amp_split_unique (e := "amp;".data) (by decide) h
    exact ⟨hp, by simp [entityTails]⟩
  · obtain ⟨hp, rfl⟩ := amp_split_unique (e := "lt;".data) (by decide) h
    exact ⟨hp, by simp [entityTails]⟩
  · obtain ⟨hp, rfl⟩ := amp_split_unique (e := "gt;".data) (by decide) h
    exact ⟨hp, by simp [entityTails]⟩
  · obtain ⟨hp, rfl⟩ := amp_split_unique (e := "quot;".data) (by decide) h
    exact ⟨hp, by simp [entityTails]⟩
  · obtain ⟨hp, rfl⟩ := amp_split_unique (e := "#039;".data) (by decide) h
    exact ⟨hp, by simp [entityTails]⟩
  · cases p₁ with
    | nil =>
        simp only [List.nil_append, List.cons.injEq] at h
        exact absurd h.1 h1
    | cons a p =>
        simp only [List.cons_append, List.cons.injEq] at h
        exact absurd h.2 (by simp)

theorem amp_begins_entity (l : List Char) :
    ∀ pre post : List Char, l.flatMap escapeChar = pre ++ '&' :: post →
      ∃ e ∈ entityTails, e <+: post := by
  induction l with
  | nil =>
      intro pre post h
      simp at h
  | cons c t ih =>
      intro pre post h
      rw [List.flatMap_cons, List.append_eq_append_iff] at h
      rcases h with ⟨a, _, hrest⟩ | ⟨b, hb, hrest⟩
      · exact ih a post hrest
      · cases b with
        | nil =>
            rw [List.nil_append] at hrest
            exact ih [] post hrest.symm
        | cons y b =>
            simp only [List.cons_append, List.cons.injEq] at hrest
            obtain ⟨rfl, rfl⟩ := hrest
            obtain ⟨_, hmem⟩ := escapeChar_amp_split hb
            exact ⟨b, hmem, List.prefix_append _ _⟩

/-- C10: for every string `s`, `escapeHtml(s)` contains none of the
characters `<`, `>`, `"`, `'`; every `&` in it is followed by the rest of one
of the entities `&amp; &lt; &gt; &quot; &#039;`; decoding those entities
gives back `s`, so `escapeHtml` is injective on strings; and `escapeHtml` of
`null` or `undefined` is the empty string. -/
theorem escapeHtml_spec (s : String) :
    (∀ c ∈ (escapeHtml (.str s)).data, c ≠ '<' ∧ c ≠ '>' ∧ c ≠ quot ∧ c ≠ apos) ∧
    (∀ pre post : List Char, (escapeHtml (.str s)).data = pre ++ '&' :: post →
      ∃ e ∈ entityTails, e <+: post) ∧
    unescapeHtml (escapeHtml (.str s)) = s ∧
    (∀ t : String, escapeHtml (.str s) = escapeHtml (.str t) → s = t) ∧
    escapeHtml .null = "" ∧ escapeHtml .undefined = "" := by
  have hround : ∀ u : String, unescapeHtml (escapeHtml (.str u)) = u := by
    intro u
    simp only [unescapeHtml, escapeHtml_data, unescapeFrom_flatMap]
  refine ⟨?_, ?_, hround s, ?_, rfl, rfl⟩
  · intro c hc
    rw [escapeHtml_data, List.mem_flatMap] at hc
    obtain ⟨d, _, hd⟩ := hc
    exact mem_escapeChar_not_special hd
  · intro pre post h
    rw [escapeHtml_data] at h
    exact amp_begins_entity s.data pre post h
  · intro t h
    rw [← hround s, ← hround t, h]

/-- A concrete run of `escapeHtml`. -/
theorem escapeHtml_example :
    escapeHtml (.str "<a href='x'>Q&A</a>") = "&lt;a href=&#039;x&#039;&gt;Q&amp;A&lt;/a&gt;" := by
  decide

/-- The store scenario of the specification: add `"1"`, add it again, remove
it; the store ends empty. -/
theorem store_scenario (lat lon : JsNum) (address raw : String) :
    (runStoreOps AppState.initial
        [.add ⟨.str "1", "A", lat, lon, address, raw⟩,
          .add ⟨.str "1", "A-dup", lat, lon, address, raw⟩,
          .remove (.str "1")]).selectedPlaces = [] := by
  simp [runStoreOps, StoreOp.apply, addPlace_selectedPlaces, removePlace_selectedPlaces,
    AppState.initial, jsString]

end TestMapFinder
